import Mathlib

/-!
Shallow embedding of the acquisition core of the journal-analysis tool
(src/app.py): rate limiting, adaptive backoff, provider fetch with retry
and caching, cursor pagination, the citing-works traversal, the concurrent
dispatcher and seed validation.  Time is measured in integral milliseconds
(Nat), the adaptive delay tiers in exact rationals.  Network behaviour is
an explicit oracle passed to each function; executing one HTTP request
increments a call counter in the state.
-/

/-- Retry bound, RETRIES = 3 in src/app.py. -/
def RETRIES : Nat := 3

/-- Delay tiers, DELAYS = [0.2, 0.5, 0.7, 1.0, 1.3, 1.5, 2.0] in src/app.py. -/
def DELAYS : List ℚ := [0.2, 0.5, 0.7, 1.0, 1.3, 1.5, 2.0]

/-- RateLimiter.wait_if_needed from src/app.py, single caller, time in ms.
Input: ceiling N (calls_per_second), recorded timestamps, current time `now`
(all recorded timestamps are at most `now`).  It filters out timestamps
older than one second; when the remaining count reaches the ceiling it
sleeps until one second after the oldest remaining timestamp, drops that
timestamp and appends `now` (the pre-sleep arrival time, exactly as the
source does).  Returns the new timestamp list and the return time of the
call, which is the admission time of the outbound request.  The empty-match
arm is unreachable for N at least 1 (the source would raise IndexError
there). -/
def RateLimiter.wait_if_needed (N : Nat) (tss : List Nat) (now : Nat) :
    List Nat × Nat :=
  let kept := tss.filter (fun ts => now - ts < 1000)
  if N ≤ kept.length then
    match kept with
    | [] => ([now], now)
    | t0 :: rest =>
      let sleepT := 1000 - (now - t0)
      (rest ++ [now], if 0 < sleepT then now + sleepT else now)
  else (kept ++ [now], now)

/-- A sequential run of admit calls against the rate limiter: each call
arrives at the requested time or at the previous return time, whichever is
later, and its admission time is the time wait_if_needed returns.  Returns
the list of admission times. -/
def runCalls (N : Nat) : List Nat → Nat → List Nat → List Nat
  | _, _, [] => []
  | tss, prevEnd, a :: rest =>
    let now := max a prevEnd
    let r := RateLimiter.wait_if_needed N tss now
    r.2 :: runCalls N r.1 r.2 rest

/-- AdaptiveDelayer.wait from src/app.py: on success reset the tier index
to 0, on failure advance it capped at the last tier; sleep and return the
selected tier duration.  Result: (new index, slept delay). -/
def AdaptiveDelayer.wait (success : Bool) (delay_index : Nat) : Nat × ℚ :=
  let i := if success then 0 else min (delay_index + 1) (DELAYS.length - 1)
  (i, DELAYS.getD i 0)

/-- Outcome of one requests.get attempt: an HTTP response with a status
code and a (well-formed, already parsed) body, or an exception raised
during the request.  The source checks only `status_code == 200`. -/
inductive NetResult (α : Type) where
  | http (code : Nat) (body : α)
  | exc
deriving DecidableEq

/-- Whether an attempt outcome is an HTTP 200 response. -/
def NetResult.isOk : NetResult α → Bool
  | .http code _ => code = 200
  | .exc => false

/-- Opaque parsed Crossref work record (the `message` object cached by
get_crossref_metadata). -/
structure CrData where
  payload : Nat
deriving DecidableEq

/-- Parsed OpenAlex work record, with the fields the traversal reads. -/
structure OaData where
  id : String
  cited_by_count : Nat
  payload : Nat
deriving DecidableEq

/-- One work object inside an OpenAlex `cites:` result page. -/
structure OaWorkStub where
  doi : Option String
  publication_date : Option String
deriving DecidableEq

/-- One OpenAlex `cites:` result page: `results` plus `meta.next_cursor`. -/
structure CitPage where
  results : List OaWorkStub
  next_cursor : Option String
deriving DecidableEq

/-- One element of the citing list built by get_citing_dois_and_metadata. -/
structure CitingEntry where
  doi : String
  pub_date : Option String
  crossref : Option CrData
  openalex : Option OaData
deriving DecidableEq

/-- Network oracle: the provider behaviour per key and per attempt index
within one retry loop.  `cr` is the Crossref works endpoint by DOI, `oa`
the OpenAlex works endpoint by DOI, `cit` the OpenAlex `cites:` page
endpoint by work id and cursor. -/
structure Net where
  cr : String → Nat → NetResult CrData
  oa : String → Nat → NetResult OaData
  cit : String → String → Nat → NetResult CitPage

/-- Pointwise map update used to model dictionary assignment. -/
def upd (f : String → Option α) (k : String) (v : α) : String → Option α :=
  fun x => if x = k then some v else f x

/-- The mutable AnalysisState fields the acquisition core uses, plus a
counter of network requests issued. -/
structure AState where
  crossref_cache : String → Option CrData
  openalex_cache : String → Option OaData
  citing_cache : String → Option (List CitingEntry)
  calls : Nat

/-- A fresh AnalysisState: all caches empty, no calls made. -/
def freshState : AState :=
  { crossref_cache := fun _ => none
    openalex_cache := fun _ => none
    citing_cache := fun _ => none
    calls := 0 }

/-- One network request was issued. -/
def bump (s : AState) : AState :=
  { s with calls := s.calls + 1 }

/-- n network requests were issued. -/
def addCalls (s : AState) (n : Nat) : AState :=
  { s with calls := s.calls + n }

/-- state.crossref_cache[doi] = v. -/
def storeCr (s : AState) (d : String) (v : CrData) : AState :=
  { s with crossref_cache := upd s.crossref_cache d v }

/-- state.openalex_cache[doi] = v. -/
def storeOa (s : AState) (d : String) (v : OaData) : AState :=
  { s with openalex_cache := upd s.openalex_cache d v }

/-- state.citing_cache[doi] = l. -/
def storeCiting (s : AState) (d : String) (l : List CitingEntry) : AState :=
  { s with citing_cache := upd s.citing_cache d l }

/-- The retry loop shared by get_crossref_metadata and
get_openalex_metadata: walk the per-attempt outcomes; every attempt issues
one request; a 200 response commits its body to the cache via `store` and
returns it; anything else falls through to the next attempt; exhaustion
returns the not-found marker. -/
def fetchLoop (doi : String) (store : AState → String → α → AState) :
    List (NetResult α) → AState → Option α × AState
  | [], s => (none, s)
  | a :: rest, s =>
    let s1 := bump s
    match a with
    | .http code b =>
      if code = 200 then (some b, store s1 doi b) else fetchLoop doi store rest s1
    | .exc => fetchLoop doi store rest s1

/-- get_crossref_metadata from src/app.py: cached value if present, None
for a falsy or N/A DOI, otherwise up to RETRIES attempts against the
Crossref endpoint. -/
def get_crossref_metadata (net : Net) (doi : String) (s : AState) :
    Option CrData × AState :=
  match s.crossref_cache doi with
  | some d => (some d, s)
  | none =>
    if doi = "" ∨ doi = "N/A" then (none, s)
    else fetchLoop doi storeCr ((List.range RETRIES).map (net.cr doi)) s

/-- get_openalex_metadata from src/app.py: same shape as the Crossref
fetch, against the OpenAlex endpoint and cache. -/
def get_openalex_metadata (net : Net) (doi : String) (s : AState) :
    Option OaData × AState :=
  match s.openalex_cache doi with
  | some d => (some d, s)
  | none =>
    if doi = "" ∨ doi = "N/A" then (none, s)
    else fetchLoop doi storeOa ((List.range RETRIES).map (net.oa doi)) s

/-- Python split by a slash followed by taking the last component, used on
the OpenAlex work id.  Accumulator recursion over the characters. -/
def lastSegmentAux : List Char → List Char → List Char
  | [], cur => cur
  | c :: rest, cur =>
    if c = '/' then lastSegmentAux rest [] else lastSegmentAux rest (cur ++ [c])

/-- oa_data id split on slash, last component (the OpenAlex work id). -/
def lastSegment (s : String) : String :=
  ⟨lastSegmentAux s.data []⟩

/-- Python truthiness of the cursor value driving both while loops:
None and the empty string stop the loop. -/
def cursorTruthy : Option String → Bool
  | none => false
  | some c => c ≠ ""

/-- The attempt loop of one page of the `cites:` traversal: each attempt
issues one request; the first 200 response yields the page; exhaustion of
the attempt list yields none (success stays False in the source). -/
def citAttempt : List (NetResult CitPage) → AState → Option CitPage × AState
  | [], s => (none, s)
  | a :: rest, s =>
    let s1 := bump s
    match a with
    | .http code b => if code = 200 then (some b, s1) else citAttempt rest s1
    | .exc => citAttempt rest s1

/-- The body of the per-page results loop in get_citing_dois_and_metadata:
for each work with a truthy DOI, fetch its Crossref and OpenAlex records
unless already cached, then append an entry carrying whatever the caches
now hold for it. -/
def processCiting (net : Net) :
    List OaWorkStub → List CitingEntry → AState → List CitingEntry × AState
  | [], acc, s => (acc, s)
  | w :: ws, acc, s =>
    match w.doi with
    | none => processCiting net ws acc s
    | some c =>
      if c = "" then processCiting net ws acc s
      else
        let s1 := if (s.crossref_cache c).isSome then s
                  else (get_crossref_metadata net c s).2
        let s2 := if (s1.openalex_cache c).isSome then s1
                  else (get_openalex_metadata net c s1).2
        processCiting net ws
          (acc ++ [{ doi := c, pub_date := w.publication_date,
                     crossref := s2.crossref_cache c,
                     openalex := s2.openalex_cache c }]) s2

/-- The cursor-driven while loop of get_citing_dois_and_metadata.  `fuel`
bounds the number of pages visited; every theorem below is about runs that
finish within the supplied fuel (the source trusts the provider to
terminate the cursor chain).  A page whose attempts are exhausted breaks
the loop with the entries collected so far. -/
def citingLoop (net : Net) (wid : String) :
    Nat → String → List CitingEntry → AState → List CitingEntry × AState
  | 0, _, acc, s => (acc, s)
  | fuel + 1, cursor, acc, s =>
    let r := citAttempt ((List.range RETRIES).map (net.cit wid cursor)) s
    match r.1 with
    | none => (acc, r.2)
    | some page =>
      let pr := processCiting net page.results acc r.2
      match page.next_cursor with
      | none => (pr.1, pr.2)
      | some c => if c = "" then (pr.1, pr.2)
                  else citingLoop net wid fuel c pr.1 pr.2

/-- get_citing_dois_and_metadata from src/app.py: return the cached citing
list when present; otherwise resolve the seed on OpenAlex; a missing
record or a zero cited_by_count caches and returns the empty list;
otherwise run the cursor loop from the root cursor and cache whatever it
returns - a full or partial list - before returning it. -/
def get_citing_dois_and_metadata (net : Net) (fuel : Nat)
    (analyzed_doi : String) (s : AState) : List CitingEntry × AState :=
  match s.citing_cache analyzed_doi with
  | some l => (l, s)
  | none =>
    let r1 := get_openalex_metadata net analyzed_doi s
    match r1.1 with
    | none => ([], storeCiting r1.2 analyzed_doi [])
    | some d =>
      if d.cited_by_count = 0 then ([], storeCiting r1.2 analyzed_doi [])
      else
        let r2 := citingLoop net (lastSegment d.id) fuel "*" [] r1.2
        (r2.1, storeCiting r2.2 analyzed_doi r2.1)

/-- The citation-collection stage of analyze_journal: run the citing
traversal for every analyzed DOI and extend one flat list with each
result.  Completion order is modelled as submission order (one
deterministic schedule of the thread pool). -/
def collectCitations (net : Net) (fuel : Nat) :
    List String → AState → List CitingEntry × AState
  | [], s => ([], s)
  | d :: ds, s =>
    let r := get_citing_dois_and_metadata net fuel d s
    let rs := collectCitations net fuel ds r.2
    (r.1 ++ rs.1, rs.2)

/-- One item of process_with_progress: future.result() of func on one
item; an exception is caught and recorded as None. -/
def runItem (func : α → Except ε β) (x : α) : Option β :=
  match func x with
  | .ok r => some r
  | .error _ => none

/-- process_with_progress from src/app.py: map func over the items with
the worker pool and append one result (or None for a raised exception) per
completed future.  Completion order is modelled as submission order. -/
def process_with_progress (func : α → Except ε β) (items : List α) :
    List (Option β) :=
  items.map (runItem func)

/-- Opaque Crossref bulk-listing item (an element of message.items). -/
structure CrItem where
  payload : Nat
deriving DecidableEq

/-- One page served by the Crossref bulk listing: the outcome of each
attempt; a 200 body is (items, next-cursor). -/
structure CrPage where
  attempts : List (NetResult (List CrItem × Option String))
deriving DecidableEq

/-- First 200 response among a list of attempt outcomes. -/
def firstOk : List (NetResult α) → Option α
  | [] => none
  | .http code b :: rest => if code = 200 then some b else firstOk rest
  | .exc :: rest => firstOk rest

/-- The while loop of fetch_articles_by_issn_period over the pages the
provider serves in order: a page whose RETRIES attempts all fail breaks
the loop with the items accumulated so far; a successful page extends the
accumulator, then an empty page or a falsy next-cursor ends the loop. -/
def fetchArticlesLoop : List CrPage → List CrItem → List CrItem
  | [], acc => acc
  | p :: rest, acc =>
    match firstOk (p.attempts.take RETRIES) with
    | none => acc
    | some (its, cur) =>
      let acc2 := acc ++ its
      if its = [] then acc2
      else if cursorTruthy cur then fetchArticlesLoop rest acc2
      else acc2

/-- Python lower() on the ASCII DOI strings. -/
def pyLower (s : String) : String :=
  ⟨s.data.map Char.toLower⟩

/-- The whitespace set of Python strip(). -/
def isPySpace (c : Char) : Bool :=
  c = ' ' || c = '\t' || c = '\n' || c = '\r' || c = '\x0b' || c = '\x0c'

/-- Python strip(): drop whitespace from both ends. -/
def pyStrip (s : String) : String :=
  ⟨((s.data.dropWhile isPySpace).reverse.dropWhile isPySpace).reverse⟩

/-- item DOI lower().strip() as in validate_and_clean_data. -/
def normalizeDoi (s : String) : String :=
  pyStrip (pyLower s)

/-- Python doi.startswith of the registrant pattern "10.". -/
def doiStartsWith10 (s : String) : Bool :=
  ['1', '0', '.'].isPrefixOf s.data

/-- A Crossref bulk item as validate_and_clean_data reads it: the DOI
field (none when absent) and created.date-parts (none when created or
date-parts is absent, in which case the source falls back to [[]]). -/
structure Item where
  doi : Option String
  created : Option (List (List Int))
deriving DecidableEq

/-- validate_and_clean_data from src/app.py: skip items with a falsy or
absent DOI, normalize the DOI, skip unless it starts with "10.", read the
first created date-parts entry (an explicitly empty date-parts list makes
the subscript raise IndexError, modelled as the error case), skip when the
date is empty or the year below 1900, and keep the item with the
normalized DOI written back. -/
def validate_and_clean_data : List Item → Except Unit (List Item)
  | [] => .ok []
  | item :: rest =>
    match item.doi with
    | none => validate_and_clean_data rest
    | some d0 =>
      if d0 = "" then validate_and_clean_data rest
      else
        let doi := normalizeDoi d0
        if ¬ doiStartsWith10 doi then validate_and_clean_data rest
        else
          match item.created with
          | none => validate_and_clean_data rest
          | some [] => .error ()
          | some (dp :: _) =>
            match dp with
            | [] => validate_and_clean_data rest
            | y :: _ =>
              if y < 1900 then validate_and_clean_data rest
              else
                match validate_and_clean_data rest with
                | .error e => .error e
                | .ok v => .ok ({ item with doi := some doi } :: v)

/-- An item on which validate_and_clean_data raises IndexError: DOI valid
but created.date-parts explicitly the empty list. -/
def crashesItem (it : Item) : Bool :=
  match it.doi with
  | none => false
  | some d0 =>
    if d0 = "" then false
    else if ¬ doiStartsWith10 (normalizeDoi d0) then false
    else
      match it.created with
      | some [] => true
      | _ => false

/-- The retention rule validate_and_clean_data implements on non-crashing
items. -/
def keepsItem (it : Item) : Bool :=
  match it.doi with
  | none => false
  | some d0 =>
    if d0 = "" then false
    else if ¬ doiStartsWith10 (normalizeDoi d0) then false
    else
      match it.created with
      | none => false
      | some [] => false
      | some (dp :: _) =>
        match dp with
        | [] => false
        | y :: _ => decide (1900 ≤ y)

/-- The normalized-DOI write-back applied to kept items. -/
def cleanItem (it : Item) : Item :=
  match it.doi with
  | none => it
  | some d0 => { it with doi := some (normalizeDoi d0) }

/-- Claim C1, counterexample: with ceiling 1 call per second, the
sequential run arriving at 0ms, 100ms and 1000ms is admitted at 0ms,
1000ms and 1100ms, so the window [1000ms, 2000ms) holds two admissions.
The second call records its pre-sleep arrival time 100 as its timestamp,
which lets the third call be admitted only 100ms later. -/
theorem rate_limiter_window_violation :
    runCalls 1 [] 0 [0, 100, 1000] = [0, 1000, 1100] ∧
    ¬ (List.countP (fun a => decide (1000 ≤ a) && decide (a < 2000))
        (runCalls 1 [] 0 [0, 100, 1000]) ≤ 1) := by
  decide

/-- Claim C1, amended: on each admission the limiter drops timestamps
older than one second and, at the ceiling, sleeps until the oldest
recorded timestamp leaves the window; what it bounds is the recorded
timestamp list, which never exceeds N entries, while actual admission
times may exceed N per sliding second because the pre-sleep arrival time
is recorded as the new timestamp. -/
theorem rate_limiter_bounded_timestamps (N : Nat) (tss : List Nat) (now : Nat)
    (h1 : 1 ≤ N) (h2 : tss.length ≤ N) :
    ((RateLimiter.wait_if_needed N tss now).1).length ≤ N := by
  have hk : (tss.filter (fun ts => now - ts < 1000)).length ≤ tss.length :=
    List.length_filter_le _ _
  simp only [RateLimiter.wait_if_needed]
  split
  · split
    · simpa using h1
    · rename_i t0 rest hkept
      rw [hkept] at hk
      simp only [List.length_append, List.length_cons, List.length_nil] at hk ⊢
      omega
  · simp only [List.length_append, List.length_nil, List.length_cons]
    omega

/-- Witness for the amended C1 theorem at N = 1, empty history, now = 5. -/
theorem rate_limiter_bounded_timestamps_witness :
    1 ≤ 1 ∧ ([] : List Nat).length ≤ 1 ∧
    ((RateLimiter.wait_if_needed 1 [] 5).1).length ≤ 1 :=
  ⟨by decide, by decide, rate_limiter_bounded_timestamps 1 [] 5 (by decide) (by decide)⟩

/-- Claim C4: from any reachable tier index, penalize (wait on failure)
never decreases the index and keeps it below the tier count, reward (wait
on success) resets it to the minimum tier, and either operation sleeps the
selected tier duration, which is positive and at least the minimum
configured delay. -/
theorem adaptive_delayer_tier_contract (i : Nat) (b : Bool)
    (h : i < DELAYS.length) :
    (i ≤ (AdaptiveDelayer.wait false i).1 ∧
      (AdaptiveDelayer.wait false i).1 < DELAYS.length) ∧
    (AdaptiveDelayer.wait true i).1 = 0 ∧
    (DELAYS.getD 0 0 ≤ (AdaptiveDelayer.wait b i).2 ∧
      0 < (AdaptiveDelayer.wait b i).2) := by
  have hlen : DELAYS.length = 7 := by decide
  have hmin : ∀ j, j < 7 → DELAYS.getD 0 0 ≤ DELAYS.getD j 0 ∧ 0 < DELAYS.getD j 0 := by
    intro j hj
    interval_cases j <;> exact ⟨by norm_num [DELAYS], by norm_num [DELAYS]⟩
  rw [hlen] at h
  refine ⟨⟨?_, ?_⟩, ?_, ?_⟩
  · simp only [AdaptiveDelayer.wait, Bool.false_eq_true, if_false, hlen]
    omega
  · simp only [AdaptiveDelayer.wait, Bool.false_eq_true, if_false, hlen]
    omega
  · simp [AdaptiveDelayer.wait]
  · cases b with
    | true =>
      simp only [AdaptiveDelayer.wait, if_true]
      exact hmin 0 (by omega)
    | false =>
      simp only [AdaptiveDelayer.wait, Bool.false_eq_true, if_false, hlen]
      exact hmin (min (i + 1) (7 - 1)) (by omega)

/-- Witness for the C4 theorem at tier index 0 with a failure call. -/
theorem adaptive_delayer_tier_contract_witness :
    0 < DELAYS.length ∧
    ((0 ≤ (AdaptiveDelayer.wait false 0).1 ∧
      (AdaptiveDelayer.wait false 0).1 < DELAYS.length) ∧
    (AdaptiveDelayer.wait true 0).1 = 0 ∧
    (DELAYS.getD 0 0 ≤ (AdaptiveDelayer.wait false 0).2 ∧
      0 < (AdaptiveDelayer.wait false 0).2)) :=
  ⟨by decide, adaptive_delayer_tier_contract 0 false (by decide)⟩

/-- When every attempt fails, the retry loop returns the not-found marker
and only the call counter changes: one issued request per attempt. -/
theorem fetchLoop_all_fail {α : Type} (doi : String)
    (store : AState → String → α → AState)
    (atts : List (NetResult α)) (s : AState)
    (h : ∀ a ∈ atts, a.isOk = false) :
    fetchLoop doi store atts s = (none, addCalls s atts.length) := by
  induction atts generalizing s with
  | nil => rfl
  | cons a rest ih =>
    have ha := h a (List.mem_cons_self a rest)
    have hrest : ∀ x ∈ rest, x.isOk = false := fun x hx => h x (List.mem_cons_of_mem _ hx)
    have hstep : addCalls (bump s) rest.length = addCalls s (a :: rest).length := by
      simp only [addCalls, bump, List.length_cons, AState.mk.injEq, true_and, and_true]
      omega
    cases a with
    | exc =>
      simp only [fetchLoop]
      rw [ih _ hrest, hstep]
    | http code b =>
      simp only [NetResult.isOk, decide_eq_false_iff_not] at ha
      simp only [fetchLoop, if_neg ha]
      rw [ih _ hrest, hstep]

/-- When the retry loop returns a value, that value was committed by the
store operation and is readable through the matching getter. -/
theorem fetchLoop_ok_cached {α : Type} (doi : String)
    (store : AState → String → α → AState) (look : AState → String → Option α)
    (hco : ∀ s b, look (store s doi b) doi = some b)
    (atts : List (NetResult α)) (s : AState) (v : α)
    (h : (fetchLoop doi store atts s).1 = some v) :
    look ((fetchLoop doi store atts s).2) doi = some v := by
  induction atts generalizing s with
  | nil => simp [fetchLoop] at h
  | cons a rest ih =>
    cases a with
    | exc =>
      simp only [fetchLoop] at h ⊢
      exact ih _ h
    | http code b =>
      by_cases hc : code = 200
      · subst hc
        have hb : some b = some v := h
        have hb2 : b = v := Option.some.inj hb
        exact hb2 ▸ hco (bump s) b
      · simp only [fetchLoop, if_neg hc] at h ⊢
        exact ih _ h

/-- The retry loop for one key leaves every other key of the matching
cache untouched. -/
theorem fetchLoop_preserves {α : Type} (doi x : String)
    (store : AState → String → α → AState) (look : AState → String → Option α)
    (hst : ∀ s b, look (store s doi b) x = look s x)
    (hbp : ∀ s, look (bump s) x = look s x)
    (atts : List (NetResult α)) (s : AState) :
    look ((fetchLoop doi store atts s).2) x = look s x := by
  induction atts generalizing s with
  | nil => rfl
  | cons a rest ih =>
    cases a with
    | exc =>
      simp only [fetchLoop]
      rw [ih _, hbp]
    | http code b =>
      by_cases hc : code = 200
      · simp only [fetchLoop, if_pos hc]
        rw [hst, hbp]
      · simp only [fetchLoop, if_neg hc]
        rw [ih _, hbp]

/-- Cache hit: a Crossref fetch for a cached DOI returns the cached value
and leaves the state untouched. -/
theorem get_crossref_metadata_cache_hit (net : Net) (d : String) (s : AState)
    (v : CrData) (h : s.crossref_cache d = some v) :
    get_crossref_metadata net d s = (some v, s) := by
  unfold get_crossref_metadata
  rw [h]

/-- Cache hit: an OpenAlex fetch for a cached DOI returns the cached value
and leaves the state untouched. -/
theorem get_openalex_metadata_cache_hit (net : Net) (d : String) (s : AState)
    (v : OaData) (h : s.openalex_cache d = some v) :
    get_openalex_metadata net d s = (some v, s) := by
  unfold get_openalex_metadata
  rw [h]

/-- A successful Crossref fetch leaves its value in the Crossref cache. -/
theorem get_crossref_metadata_success (net : Net) (d : String) (s : AState)
    (dc : CrData) (h : (get_crossref_metadata net d s).1 = some dc) :
    (get_crossref_metadata net d s).2.crossref_cache d = some dc := by
  cases hc : s.crossref_cache d with
  | some v =>
    have he : get_crossref_metadata net d s = (some v, s) :=
      get_crossref_metadata_cache_hit net d s v hc
    rw [he] at h ⊢
    exact hc.trans h
  | none =>
    by_cases hv : d = "" ∨ d = "N/A"
    · have he : get_crossref_metadata net d s = (none, s) := by
        unfold get_crossref_metadata
        rw [hc]
        simp [hv]
      rw [he] at h
      simp at h
    · have he : get_crossref_metadata net d s
          = fetchLoop d storeCr ((List.range RETRIES).map (net.cr d)) s := by
        unfold get_crossref_metadata
        rw [hc]
        simp [hv]
      rw [he] at h ⊢
      exact fetchLoop_ok_cached d storeCr (fun s x => s.crossref_cache x)
        (fun s b => by simp [storeCr, upd]) _ s dc h

/-- A successful OpenAlex fetch leaves its value in the OpenAlex cache. -/
theorem get_openalex_metadata_success (net : Net) (d : String) (s : AState)
    (dd : OaData) (h : (get_openalex_metadata net d s).1 = some dd) :
    (get_openalex_metadata net d s).2.openalex_cache d = some dd := by
  cases hc : s.openalex_cache d with
  | some v =>
    have he : get_openalex_metadata net d s = (some v, s) :=
      get_openalex_metadata_cache_hit net d s v hc
    rw [he] at h ⊢
    exact hc.trans h
  | none =>
    by_cases hv : d = "" ∨ d = "N/A"
    · have he : get_openalex_metadata net d s = (none, s) := by
        unfold get_openalex_metadata
        rw [hc]
        simp [hv]
      rw [he] at h
      simp at h
    · have he : get_openalex_metadata net d s
          = fetchLoop d storeOa ((List.range RETRIES).map (net.oa d)) s := by
        unfold get_openalex_metadata
        rw [hc]
        simp [hv]
      rw [he] at h ⊢
      exact fetchLoop_ok_cached d storeOa (fun s x => s.openalex_cache x)
        (fun s b => by simp [storeOa, upd]) _ s dd h

/-- A Crossref fetch for one DOI never modifies the cache entry of a
different DOI. -/
theorem get_crossref_metadata_preserves (net : Net) (d2 d : String) (s : AState)
    (hne : d ≠ d2) :
    (get_crossref_metadata net d2 s).2.crossref_cache d = s.crossref_cache d := by
  unfold get_crossref_metadata
  cases hc : s.crossref_cache d2 with
  | some v => rfl
  | none =>
    by_cases hv : d2 = "" ∨ d2 = "N/A"
    · simp [hv]
    · simp only [if_neg hv]
      exact fetchLoop_preserves d2 d storeCr (fun s x => s.crossref_cache x)
        (fun s b => by simp [storeCr, upd, hne]) (fun s => rfl) _ s

/-- An OpenAlex fetch for one DOI never modifies the cache entry of a
different DOI. -/
theorem get_openalex_metadata_preserves (net : Net) (d2 d : String) (s : AState)
    (hne : d ≠ d2) :
    (get_openalex_metadata net d2 s).2.openalex_cache d = s.openalex_cache d := by
  unfold get_openalex_metadata
  cases hc : s.openalex_cache d2 with
  | some v => rfl
  | none =>
    by_cases hv : d2 = "" ∨ d2 = "N/A"
    · simp [hv]
    · simp only [if_neg hv]
      exact fetchLoop_preserves d2 d storeOa (fun s x => s.openalex_cache x)
        (fun s b => by simp [storeOa, upd, hne]) (fun s => rfl) _ s

/-- Claim C2: once a fetch for DOI d has succeeded on a provider, the
value sits in that provider cache; a second fetch for d returns exactly
the stored value with the state unchanged, hence with no network call; and
a fetch for any other DOI leaves the stored record for d intact. -/
theorem cache_memoization (net net2 : Net) (d d2 : String) (s t : AState)
    (dc : CrData) (dd : OaData)
    (h1 : (get_crossref_metadata net d s).1 = some dc)
    (h2 : (get_openalex_metadata net d t).1 = some dd)
    (h3 : d ≠ d2) :
    ((get_crossref_metadata net d s).2.crossref_cache d = some dc ∧
     get_crossref_metadata net2 d (get_crossref_metadata net d s).2
       = (some dc, (get_crossref_metadata net d s).2) ∧
     (get_crossref_metadata net2 d (get_crossref_metadata net d s).2).2.calls
       = (get_crossref_metadata net d s).2.calls ∧
     (get_crossref_metadata net2 d2 (get_crossref_metadata net d s).2).2.crossref_cache d
       = some dc) ∧
    ((get_openalex_metadata net d t).2.openalex_cache d = some dd ∧
     get_openalex_metadata net2 d (get_openalex_metadata net d t).2
       = (some dd, (get_openalex_metadata net d t).2) ∧
     (get_openalex_metadata net2 d (get_openalex_metadata net d t).2).2.calls
       = (get_openalex_metadata net d t).2.calls ∧
     (get_openalex_metadata net2 d2 (get_openalex_metadata net d t).2).2.openalex_cache d
       = some dd) := by
  have a1 := get_crossref_metadata_success net d s dc h1
  have a2 := get_crossref_metadata_cache_hit net2 d _ dc a1
  have a4 := (get_crossref_metadata_preserves net2 d2 d
    (get_crossref_metadata net d s).2 h3).trans a1
  have b1 := get_openalex_metadata_success net d t dd h2
  have b2 := get_openalex_metadata_cache_hit net2 d _ dd b1
  have b4 := (get_openalex_metadata_preserves net2 d2 d
    (get_openalex_metadata net d t).2 h3).trans b1
  exact ⟨⟨a1, a2, by rw [a2], a4⟩, ⟨b1, b2, by rw [b2], b4⟩⟩

/-- Oracle for the memoization witness: both providers answer 200 on every
attempt. -/
def memoNet : Net :=
  { cr := fun _ _ => .http 200 { payload := 7 }
    oa := fun _ _ => .http 200 { id := "https://openalex.org/W9", cited_by_count := 2, payload := 9 }
    cit := fun _ _ _ => .exc }

/-- Witness for the C2 theorem on a fresh state and concrete DOIs. -/
theorem cache_memoization_witness :
    (get_crossref_metadata memoNet "10.1/a" freshState).1 = some { payload := 7 } ∧
    (get_openalex_metadata memoNet "10.1/a" freshState).1
      = some { id := "https://openalex.org/W9", cited_by_count := 2, payload := 9 } ∧
    "10.1/a" ≠ "10.2/b" ∧
    (((get_crossref_metadata memoNet "10.1/a" freshState).2.crossref_cache "10.1/a"
        = some { payload := 7 } ∧
      get_crossref_metadata memoNet "10.1/a" (get_crossref_metadata memoNet "10.1/a" freshState).2
        = (some { payload := 7 }, (get_crossref_metadata memoNet "10.1/a" freshState).2) ∧
      (get_crossref_metadata memoNet "10.1/a"
        (get_crossref_metadata memoNet "10.1/a" freshState).2).2.calls
        = (get_crossref_metadata memoNet "10.1/a" freshState).2.calls ∧
      (get_crossref_metadata memoNet "10.2/b"
        (get_crossref_metadata memoNet "10.1/a" freshState).2).2.crossref_cache "10.1/a"
        = some { payload := 7 }) ∧
     ((get_openalex_metadata memoNet "10.1/a" freshState).2.openalex_cache "10.1/a"
        = some { id := "https://openalex.org/W9", cited_by_count := 2, payload := 9 } ∧
      get_openalex_metadata memoNet "10.1/a" (get_openalex_metadata memoNet "10.1/a" freshState).2
        = (some { id := "https://openalex.org/W9", cited_by_count := 2, payload := 9 },
           (get_openalex_metadata memoNet "10.1/a" freshState).2) ∧
      (get_openalex_metadata memoNet "10.1/a"
        (get_openalex_metadata memoNet "10.1/a" freshState).2).2.calls
        = (get_openalex_metadata memoNet "10.1/a" freshState).2.calls ∧
      (get_openalex_metadata memoNet "10.2/b"
        (get_openalex_metadata memoNet "10.1/a" freshState).2).2.openalex_cache "10.1/a"
        = some { id := "https://openalex.org/W9", cited_by_count := 2, payload := 9 })) :=
  ⟨by decide, by decide, by decide,
   cache_memoization memoNet memoNet "10.1/a" "10.2/b" freshState freshState
     { payload := 7 } { id := "https://openalex.org/W9", cited_by_count := 2, payload := 9 }
     (by decide) (by decide) (by decide)⟩

/-- Oracle answering HTTP 404 to every Crossref attempt. -/
def net404 : Net :=
  { cr := fun _ _ => .http 404 { payload := 0 }
    oa := fun _ _ => .exc
    cit := fun _ _ _ => .exc }

/-- Claim C3, counterexample: a DOI whose provider answers 404 on every
attempt consumes all three attempts of the retry loop - it would consume
exactly one if 404 were treated as a valid empty result and not retried -
and then degrades to the not-found marker. -/
theorem crossref_404_retried :
    (get_crossref_metadata net404 "10.1/x" freshState).2.calls = 3 ∧
    ¬ ((get_crossref_metadata net404 "10.1/x" freshState).2.calls = 1) ∧
    (get_crossref_metadata net404 "10.1/x" freshState).1 = none := by
  decide

/-- Claim C3, amended: the fetch does not distinguish 404 from transient
errors; every response other than HTTP 200 - connection error, timeout,
5xx and 404 alike - is retried up to the fixed bound RETRIES, after which
the fetch degrades to the not-found marker. -/
theorem crossref_non200_retry_bound (net : Net) (d : String) (s : AState)
    (hc : s.crossref_cache d = none) (hd : ¬ (d = "" ∨ d = "N/A"))
    (hf : ∀ k, k < RETRIES → (net.cr d k).isOk = false) :
    (get_crossref_metadata net d s).1 = none ∧
    (get_crossref_metadata net d s).2.calls = s.calls + RETRIES := by
  have hall : ∀ a ∈ (List.range RETRIES).map (net.cr d), a.isOk = false := by
    intro a ha
    rcases List.mem_map.mp ha with ⟨k, hk, rfl⟩
    exact hf k (List.mem_range.mp hk)
  have he : get_crossref_metadata net d s
      = fetchLoop d storeCr ((List.range RETRIES).map (net.cr d)) s := by
    unfold get_crossref_metadata
    rw [hc]
    simp [hd]
  rw [he, fetchLoop_all_fail _ _ _ _ hall]
  refine ⟨rfl, ?_⟩
  simp [addCalls]

/-- Witness for the amended C3 theorem: all-404 oracle, fresh state. -/
theorem crossref_non200_retry_bound_witness :
    freshState.crossref_cache "10.1/x" = none ∧
    ¬ ("10.1/x" = "" ∨ "10.1/x" = "N/A") ∧
    (net404.cr "10.1/x" 0).isOk = false ∧
    (net404.cr "10.1/x" 1).isOk = false ∧
    (net404.cr "10.1/x" 2).isOk = false ∧
    ((get_crossref_metadata net404 "10.1/x" freshState).1 = none ∧
     (get_crossref_metadata net404 "10.1/x" freshState).2.calls
       = freshState.calls + RETRIES) :=
  ⟨by decide, by decide, by decide, by decide, by decide,
   crossref_non200_retry_bound net404 "10.1/x" freshState (by decide) (by decide) (by decide)⟩

/-- Claim C5: when every attempt for a DOI fails, the fetch returns the
not-found marker, the Crossref cache is left exactly as it was - negative
results are not cached - and a subsequent lookup of the same DOI issues
the full round of network attempts again. -/
theorem no_negative_caching (net : Net) (d : String) (s : AState)
    (hc : s.crossref_cache d = none) (hd : ¬ (d = "" ∨ d = "N/A"))
    (hf : ∀ k, k < RETRIES → (net.cr d k).isOk = false) :
    (get_crossref_metadata net d s).1 = none ∧
    (get_crossref_metadata net d s).2.crossref_cache = s.crossref_cache ∧
    (get_crossref_metadata net d (get_crossref_metadata net d s).2).2.calls
      = s.calls + RETRIES + RETRIES := by
  have hall : ∀ a ∈ (List.range RETRIES).map (net.cr d), a.isOk = false := by
    intro a ha
    rcases List.mem_map.mp ha with ⟨k, hk, rfl⟩
    exact hf k (List.mem_range.mp hk)
  have he : get_crossref_metadata net d s
      = fetchLoop d storeCr ((List.range RETRIES).map (net.cr d)) s := by
    unfold get_crossref_metadata
    rw [hc]
    simp [hd]
  have hrun : get_crossref_metadata net d s
      = (none, addCalls s ((List.range RETRIES).map (net.cr d)).length) := by
    rw [he, fetchLoop_all_fail _ _ _ _ hall]
  have hc2 : (addCalls s ((List.range RETRIES).map (net.cr d)).length).crossref_cache d
      = none := hc
  have he2 : get_crossref_metadata net d
        (addCalls s ((List.range RETRIES).map (net.cr d)).length)
      = fetchLoop d storeCr ((List.range RETRIES).map (net.cr d))
          (addCalls s ((List.range RETRIES).map (net.cr d)).length) := by
    unfold get_crossref_metadata
    rw [hc2]
    simp [hd]
  rw [hrun]
  refine ⟨rfl, rfl, ?_⟩
  show (get_crossref_metadata net d
      (addCalls s ((List.range RETRIES).map (net.cr d)).length)).2.calls
    = s.calls + RETRIES + RETRIES
  rw [he2, fetchLoop_all_fail _ _ _ _ hall]
  simp only [addCalls, List.length_map, List.length_range]

/-- Witness for the C5 theorem: all-404 oracle, fresh state. -/
theorem no_negative_caching_witness :
    freshState.crossref_cache "10.1/y" = none ∧
    ¬ ("10.1/y" = "" ∨ "10.1/y" = "N/A") ∧
    (net404.cr "10.1/y" 0).isOk = false ∧
    (net404.cr "10.1/y" 1).isOk = false ∧
    (net404.cr "10.1/y" 2).isOk = false ∧
    ((get_crossref_metadata net404 "10.1/y" freshState).1 = none ∧
     (get_crossref_metadata net404 "10.1/y" freshState).2.crossref_cache
       = freshState.crossref_cache ∧
     (get_crossref_metadata net404 "10.1/y"
        (get_crossref_metadata net404 "10.1/y" freshState).2).2.calls
       = freshState.calls + RETRIES + RETRIES) :=
  ⟨by decide, by decide, by decide, by decide, by decide,
   no_negative_caching net404 "10.1/y" freshState (by decide) (by decide) (by decide)⟩

/-- Cache hit: the citing traversal for a seed whose citing list is cached
returns the stored list and leaves the state untouched. -/
theorem get_citing_cache_hit (net : Net) (fuel : Nat) (d : String)
    (s : AState) (l : List CitingEntry) (h : s.citing_cache d = some l) :
    get_citing_dois_and_metadata net fuel d s = (l, s) := by
  unfold get_citing_dois_and_metadata
  rw [h]

/-- Claim C10: whatever list the citing traversal returns for a seed -
cached, empty because the seed has no open-metadata record or a zero
cited_by_count, complete, or partial after an early abort - is stored in
the per-seed citing cache on return, and any later call for that seed (any
oracle, any fuel) returns the stored list unchanged with the state - in
particular the network call counter - untouched. -/
theorem citing_cache_invariant (net net2 : Net) (fuel fuel2 : Nat)
    (d : String) (s : AState) :
    (get_citing_dois_and_metadata net fuel d s).2.citing_cache d
      = some (get_citing_dois_and_metadata net fuel d s).1 ∧
    get_citing_dois_and_metadata net2 fuel2 d
        (get_citing_dois_and_metadata net fuel d s).2
      = ((get_citing_dois_and_metadata net fuel d s).1,
         (get_citing_dois_and_metadata net fuel d s).2) := by
  have h1 : (get_citing_dois_and_metadata net fuel d s).2.citing_cache d
      = some (get_citing_dois_and_metadata net fuel d s).1 := by
    unfold get_citing_dois_and_metadata
    cases hc : s.citing_cache d with
    | some l => simp only [hc]
    | none =>
      simp only [hc]
      cases ho : (get_openalex_metadata net d s).1 with
      | none => simp [storeCiting, upd]
      | some w =>
        by_cases hw : w.cited_by_count = 0
        · simp [hw, storeCiting, upd]
        · simp [hw, storeCiting, upd]
  exact ⟨h1, get_citing_cache_hit net2 fuel2 d _ _ h1⟩

/-- Claim C6: when citing work X appears once in the traversal result of
seed A and once in the traversal result of seed B run from the state A
left behind, the flattened citing-edge list of the citation-collection
stage over seeds [A, B] carries X twice - duplicates across seeds are not
collapsed at this layer. -/
theorem citing_edges_not_collapsed (net : Net) (fuel : Nat)
    (A B X : String) (s : AState)
    (h1 : ((get_citing_dois_and_metadata net fuel A s).1.countP
            (fun e => e.doi == X)) = 1)
    (h2 : ((get_citing_dois_and_metadata net fuel B
            (get_citing_dois_and_metadata net fuel A s).2).1.countP
            (fun e => e.doi == X)) = 1) :
    ((collectCitations net fuel [A, B] s).1.countP (fun e => e.doi == X)) = 2 := by
  simp only [collectCitations]
  rw [List.countP_append, List.countP_append]
  simp [h1, h2]

/-- Oracle for the C6 witness: seeds 10.1/a and 10.1/b each have one
citing work 10.9/x; its own record fetches fail on both providers. -/
def c6net : Net :=
  { cr := fun _ _ => .exc
    oa := fun doi _ =>
      if doi = "10.1/a" then
        .http 200 { id := "https://openalex.org/W1", cited_by_count := 1, payload := 0 }
      else if doi = "10.1/b" then
        .http 200 { id := "https://openalex.org/W2", cited_by_count := 1, payload := 1 }
      else .exc
    cit := fun _ _ _ =>
      .http 200 { results := [{ doi := some "10.9/x", publication_date := some "2024-01-01" }],
                  next_cursor := none } }

/-- Witness for the C6 theorem: the concrete two-seed scenario. -/
theorem citing_edges_not_collapsed_witness :
    ((get_citing_dois_and_metadata c6net 5 "10.1/a" freshState).1.countP
      (fun e => e.doi == "10.9/x")) = 1 ∧
    ((get_citing_dois_and_metadata c6net 5 "10.1/b"
        (get_citing_dois_and_metadata c6net 5 "10.1/a" freshState).2).1.countP
      (fun e => e.doi == "10.9/x")) = 1 ∧
    ((collectCitations c6net 5 ["10.1/a", "10.1/b"] freshState).1.countP
      (fun e => e.doi == "10.9/x")) = 2 :=
  ⟨by decide, by decide,
   citing_edges_not_collapsed c6net 5 "10.1/a" "10.1/b" "10.9/x" freshState
     (by decide) (by decide)⟩

/-- When every attempt for one citing page fails, the attempt loop yields
no page and only the call counter moves. -/
theorem citAttempt_all_fail (atts : List (NetResult CitPage)) (s : AState)
    (h : ∀ a ∈ atts, a.isOk = false) :
    citAttempt atts s = (none, addCalls s atts.length) := by
  induction atts generalizing s with
  | nil => rfl
  | cons a rest ih =>
    have ha := h a (List.mem_cons_self a rest)
    have hrest : ∀ x ∈ rest, x.isOk = false := fun x hx => h x (List.mem_cons_of_mem _ hx)
    have hstep : addCalls (bump s) rest.length = addCalls s (a :: rest).length := by
      simp only [addCalls, bump, List.length_cons, AState.mk.injEq, true_and, and_true]
      omega
    cases a with
    | exc =>
      simp only [citAttempt]
      rw [ih _ hrest, hstep]
    | http code b =>
      simp only [NetResult.isOk, decide_eq_false_iff_not] at ha
      simp only [citAttempt, if_neg ha]
      rw [ih _ hrest, hstep]

/-- Claim C9: in both paginated collectors, a page whose RETRIES attempts
all fail ends the loop immediately with exactly the items accumulated from
the pages already fetched; the remaining pages are never visited and no
exception escapes (both loops are total functions). -/
theorem pagination_partial_results (failp : CrPage) (rest : List CrPage)
    (acc : List CrItem) (net : Net) (wid cursor : String) (fuel : Nat)
    (cacc : List CitingEntry) (s : AState)
    (h1 : firstOk (failp.attempts.take RETRIES) = none)
    (h2 : ∀ k, k < RETRIES → (net.cit wid cursor k).isOk = false) :
    fetchArticlesLoop (failp :: rest) acc = acc ∧
    (citingLoop net wid (fuel + 1) cursor cacc s).1 = cacc := by
  constructor
  · simp only [fetchArticlesLoop, h1]
  · have hall : ∀ a ∈ (List.range RETRIES).map (net.cit wid cursor), a.isOk = false := by
      intro a ha
      rcases List.mem_map.mp ha with ⟨k, hk, rfl⟩
      exact h2 k (List.mem_range.mp hk)
    have hrun := citAttempt_all_fail ((List.range RETRIES).map (net.cit wid cursor)) s hall
    simp only [citingLoop, hrun]

/-- A failing page for the C9 witness: an exception, a 500 and another
exception. -/
def failPage : CrPage :=
  { attempts := [.exc, .http 500 ([], none), .exc] }

/-- Witness for the C9 theorem: the failing page after two collected
items, and an all-exception citing oracle after one collected entry. -/
theorem pagination_partial_results_witness :
    firstOk (failPage.attempts.take RETRIES) = none ∧
    (net404.cit "W1" "*" 0).isOk = false ∧
    (net404.cit "W1" "*" 1).isOk = false ∧
    (net404.cit "W1" "*" 2).isOk = false ∧
    (fetchArticlesLoop [failPage] [{ payload := 1 }, { payload := 2 }]
      = [{ payload := 1 }, { payload := 2 }] ∧
     (citingLoop net404 "W1" (0 + 1) "*"
        [{ doi := "10.9/x", pub_date := none, crossref := none, openalex := none }]
        freshState).1
      = [{ doi := "10.9/x", pub_date := none, crossref := none, openalex := none }]) :=
  ⟨by decide, by decide, by decide, by decide,
   pagination_partial_results failPage [] [{ payload := 1 }, { payload := 2 }]
     net404 "W1" "*" 0
     [{ doi := "10.9/x", pub_date := none, crossref := none, openalex := none }]
     freshState (by decide) (by decide)⟩

/-- Counting helper for the dispatcher: mapping a per-item function whose
result is none at exactly one index yields exactly one none, length minus
one some results, and the none sits at that index. -/
theorem map_single_none_count {α β : Type} (g : α → Option β) (l : List α)
    (x₀ : α) (i : Nat) (hi : i < l.length)
    (herr : (g (l.getD i x₀)).isNone = true)
    (hok : ∀ j, j < l.length → j ≠ i → (g (l.getD j x₀)).isSome = true) :
    (l.map g).countP (fun r => r.isNone) = 1 ∧
    (l.map g).countP (fun r => r.isSome) = l.length - 1 ∧
    ((l.map g).getD i none).isNone = true := by
  induction l generalizing i with
  | nil => simp at hi
  | cons a t ih =>
    cases i with
    | zero =>
      have herr0 : (g a).isNone = true := by simpa using herr
      have hsome0 : (g a).isSome = false := by
        rcases Option.isNone_iff_eq_none.mp herr0 with h
        rw [h]
        rfl
      have htail : ∀ x ∈ t.map g, x.isSome = true := by
        intro x hx
        rcases List.mem_map.mp hx with ⟨b, hb, rfl⟩
        rcases List.mem_iff_getElem.mp hb with ⟨j, hj, rfl⟩
        have hj2 : j + 1 < (a :: t).length := by
          simp only [List.length_cons]
          omega
        have := hok (j + 1) hj2 (by omega)
        simpa [List.getD_cons_succ, List.getD_eq_getElem?_getD,
          List.getElem?_eq_getElem hj] using this
      refine ⟨?_, ?_, ?_⟩
      · rw [List.map_cons, List.countP_cons_of_pos _ _ (by simpa using herr0)]
        have hz : (t.map g).countP (fun r => r.isNone) = 0 := by
          rw [List.countP_eq_zero]
          intro x hx
          have := htail x hx
          simp [Option.isNone_iff_eq_none]
          intro hxe
          rw [hxe] at this
          exact absurd this (by simp)
        omega
      · rw [List.map_cons, List.countP_cons_of_neg _ _ (by simp [hsome0])]
        have hfull : (t.map g).countP (fun r => r.isSome) = (t.map g).length := by
          rw [List.countP_eq_length]
          intro x hx
          simpa using htail x hx
        rw [hfull]
        simp
      · simpa using herr0
    | succ k =>
      have hk : k < t.length := by
        simp only [List.length_cons] at hi
        omega
      have hhead : (g a).isSome = true := by
        have h0 : (0 : Nat) < (a :: t).length := by
          simp only [List.length_cons]
          omega
        have := hok 0 h0 (by omega)
        simpa using this
      have herr2 : (g (t.getD k x₀)).isNone = true := by
        simpa [List.getD_cons_succ] using herr
      have hok2 : ∀ j, j < t.length → j ≠ k → (g (t.getD j x₀)).isSome = true := by
        intro j hj hne
        have hj2 : j + 1 < (a :: t).length := by
          simp only [List.length_cons]
          omega
        have := hok (j + 1) hj2 (by omega)
        simpa [List.getD_cons_succ] using this
      obtain ⟨c1, c2, c3⟩ := ih k hk herr2 hok2
      have hheadnone : (g a).isNone = false := by
        rcases Option.isSome_iff_exists.mp hhead with ⟨v, hv⟩
        rw [hv]
        rfl
      refine ⟨?_, ?_, ?_⟩
      · rw [List.map_cons, List.countP_cons_of_neg _ _ (by simp [hheadnone])]
        exact c1
      · rw [List.map_cons, List.countP_cons_of_pos _ _ (by simpa using hhead)]
        rw [c2]
        simp only [List.length_cons]
        omega
      · simpa [List.getD_cons_succ] using c3

/-- Claim C7: when func raises on exactly the item at index i, the
dispatcher map returns one result per item, with a null exactly at index
i and every other result non-null; the exception is absorbed into that
null rather than aborting the batch. -/
theorem dispatcher_isolates_failures {α β ε : Type} (items : List α)
    (func : α → Except ε β) (x₀ : α) (i : Nat) (hi : i < items.length)
    (herr : (runItem func (items.getD i x₀)).isNone = true)
    (hok : ∀ j, j < items.length → j ≠ i →
      (runItem func (items.getD j x₀)).isSome = true) :
    (process_with_progress func items).length = items.length ∧
    ((process_with_progress func items).getD i none).isNone = true ∧
    (process_with_progress func items).countP (fun r => r.isNone) = 1 ∧
    (process_with_progress func items).countP (fun r => r.isSome)
      = items.length - 1 := by
  obtain ⟨c1, c2, c3⟩ :=
    map_single_none_count (runItem func) items x₀ i hi herr hok
  exact ⟨by simp [process_with_progress], c3, c1, c2⟩

/-- Witness for the C7 theorem: four items, func raising exactly on the
third. -/
theorem dispatcher_isolates_failures_witness :
    2 < ([10, 20, 30, 40] : List Nat).length ∧
    (runItem (fun n => if n = 30 then Except.error () else Except.ok n)
      (([10, 20, 30, 40] : List Nat).getD 2 0)).isNone = true ∧
    (runItem (fun n => if n = 30 then Except.error () else Except.ok n)
      (([10, 20, 30, 40] : List Nat).getD 0 0)).isSome = true ∧
    (runItem (fun n => if n = 30 then Except.error () else Except.ok n)
      (([10, 20, 30, 40] : List Nat).getD 1 0)).isSome = true ∧
    (runItem (fun n => if n = 30 then Except.error () else Except.ok n)
      (([10, 20, 30, 40] : List Nat).getD 3 0)).isSome = true ∧
    ((process_with_progress (fun n => if n = 30 then Except.error () else Except.ok n)
        ([10, 20, 30, 40] : List Nat)).length = ([10, 20, 30, 40] : List Nat).length ∧
     ((process_with_progress (fun n => if n = 30 then Except.error () else Except.ok n)
        ([10, 20, 30, 40] : List Nat)).getD 2 none).isNone = true ∧
     (process_with_progress (fun n => if n = 30 then Except.error () else Except.ok n)
        ([10, 20, 30, 40] : List Nat)).countP (fun r => r.isNone) = 1 ∧
     (process_with_progress (fun n => if n = 30 then Except.error () else Except.ok n)
        ([10, 20, 30, 40] : List Nat)).countP (fun r => r.isSome)
      = ([10, 20, 30, 40] : List Nat).length - 1) :=
  ⟨by decide, by decide, by decide, by decide, by decide,
   dispatcher_isolates_failures ([10, 20, 30, 40] : List Nat)
     (fun n => if n = 30 then Except.error () else Except.ok n) 0 2
     (by decide) (by decide) (by decide)⟩

/-- An item carrying a valid DOI but no created date. -/
def c8item : Item :=
  { doi := some "10.1/x", created := none }

/-- Claim C8, counterexample: an item whose DOI is valid and already
normalized but which has no created date is skipped by
validate_and_clean_data, while the claim requires every item with such a
DOI to be retained. -/
theorem validate_skips_dateless :
    validate_and_clean_data [c8item] = Except.ok [] ∧
    (Except.ok [] : Except Unit (List Item)) ≠ Except.ok [cleanItem c8item] := by
  constructor
  · rfl
  · intro hcontra
    simp [cleanItem, c8item] at hcontra

/-- Claim C8, amended: on any input list free of the IndexError case (an
explicitly empty created.date-parts list after a valid DOI),
validate_and_clean_data keeps exactly the items whose DOI is present,
truthy and, after lower-casing and trimming, starts with "10.", and whose
first created date-parts entry is nonempty with year at least 1900; each
kept item has the normalized DOI written back. -/
theorem validate_characterization (items : List Item)
    (h : ∀ it ∈ items, crashesItem it = false) :
    validate_and_clean_data items
      = Except.ok ((items.filter keepsItem).map cleanItem) := by
  induction items with
  | nil => rfl
  | cons it rest ih =>
    have hit := h it (List.mem_cons_self it rest)
    have hr := ih (fun x hx => h x (List.mem_cons_of_mem _ hx))
    cases hdoi : it.doi with
    | none =>
      have hk : keepsItem it = false := by simp [keepsItem, hdoi]
      simp only [validate_and_clean_data, hdoi, List.filter_cons, hk]
      simpa using hr
    | some d0 =>
      by_cases h0 : d0 = ""
      · have hk : keepsItem it = false := by simp [keepsItem, hdoi, h0]
        simp only [validate_and_clean_data, hdoi, if_pos h0, List.filter_cons, hk]
        simpa using hr
      · cases hsw : doiStartsWith10 (normalizeDoi d0) with
        | false =>
          have hk : keepsItem it = false := by simp [keepsItem, hdoi, h0, hsw]
          simp only [validate_and_clean_data, hdoi, if_neg h0, hsw,
            List.filter_cons, hk]
          simpa using hr
        | true =>
          cases hcr : it.created with
          | none =>
            have hk : keepsItem it = false := by simp [keepsItem, hdoi, h0, hsw, hcr]
            simp only [validate_and_clean_data, hdoi, if_neg h0, hsw, hcr,
              List.filter_cons, hk]
            simpa using hr
          | some dps =>
            cases dps with
            | nil =>
              exfalso
              simp [crashesItem, hdoi, h0, hsw, hcr] at hit
            | cons dp dtail =>
              cases dp with
              | nil =>
                have hk : keepsItem it = false := by
                  simp [keepsItem, hdoi, h0, hsw, hcr]
                simp only [validate_and_clean_data, hdoi, if_neg h0, hsw, hcr,
                  List.filter_cons, hk]
                simpa using hr
              | cons y ytail =>
                by_cases hy : y < 1900
                · have hk : keepsItem it = false := by
                    simp [keepsItem, hdoi, h0, hsw, hcr]
                    omega
                  simp only [validate_and_clean_data, hdoi, if_neg h0, hsw, hcr,
                    if_pos hy, List.filter_cons, hk]
                  simpa using hr
                · have hk : keepsItem it = true := by
                    simp [keepsItem, hdoi, h0, hsw, hcr]
                    omega
                  simp only [validate_and_clean_data, hdoi, if_neg h0, hsw, hcr,
                    if_neg hy, hr, List.filter_cons, hk]
                  simp [cleanItem, hdoi, hcr]

/-- A kept item for the C8 witness: DOI needing normalization and a valid
2020 date. -/
def c8kept : Item :=
  { doi := some " 10.1/X ", created := some [[2020, 1, 1]] }

/-- A skipped item for the C8 witness: no DOI at all. -/
def c8skipped : Item :=
  { doi := none, created := some [[2020, 1, 1]] }

/-- Witness for the amended C8 theorem on a three-item list: one dateless
item, one kept item with a DOI to normalize, one item without a DOI. -/
theorem validate_characterization_witness :
    crashesItem c8item = false ∧
    crashesItem c8kept = false ∧
    crashesItem c8skipped = false ∧
    validate_and_clean_data [c8item, c8kept, c8skipped]
      = Except.ok ((([c8item, c8kept, c8skipped].filter keepsItem)).map cleanItem) :=
  ⟨by decide, by decide, by decide,
   validate_characterization [c8item, c8kept, c8skipped] (by decide)⟩
